import Mathlib

/-!
Verification of the food-truck search service (`main.go`) against its
natural-language specification.

The development shallow-embeds the three components of the program:

* `readFoodTruckData` — the CSV loader (main.go lines 160-201), taking the
  already-parsed CSV rows (the `os.Open`/`encoding/csv` collaborators are
  external to the repository);
* `getWalkableTrucks` — the proximity filter (main.go lines 205-266), taking
  the external distance-matrix retriever as a function parameter, exactly as
  the Go code takes the `distanceMatrixRetriever` interface;
* `searchFoodTrucks` — the search pipeline (main.go lines 116-156).

Go machine integers are modelled as `Nat`/`Int` with explicit reduction
modulo `2^64` where the code converts to `uint`.  Functions that can `panic`
return a `GoOutcome`, which distinguishes a normal return, a returned
(non-nil) `error` value, and a panic.  The latitude/longitude `float64`
arguments are modelled as `Rat`: the code only ever compares them with `0`
and passes them through to the external retriever, so no claim depends on
floating-point rounding.
-/

/-- Outcome of running a Go function: a normal return, a returned non-nil
`error` value, or a `panic`. -/
inductive GoOutcome (α : Type) where
  | ok : α → GoOutcome α
  | error : String → GoOutcome α
  | panicked : String → GoOutcome α
deriving Repr, DecidableEq

/-- `foodTruckInfo` (main.go lines 22-31): one row of the data set.
`Received` is a Go `uint` (64-bit); its values are the naturals below
`2^64`. -/
structure foodTruckInfo where
  Name : String
  FacilityType : String
  Address : String
  Status : String
  FoodItems : String
  LatLon : String
  Received : Nat
deriving Repr, DecidableEq

/-- `maps.Distance`: the distance part of one distance-matrix element. -/
structure DMDistance where
  HumanReadable : String
  Meters : Int
deriving Repr, DecidableEq

/-- One element of a distance-matrix response row (`maps.DistanceMatrixElement`,
restricted to the fields the program reads). -/
structure DMElement where
  Status : String
  Distance : DMDistance
deriving Repr, DecidableEq

/-- One row of a distance-matrix response (`maps.DistanceMatrixElementsRow`). -/
structure DMRow where
  Elements : List DMElement
deriving Repr, DecidableEq

/-- A distance-matrix response (`maps.DistanceMatrixResponse`, restricted to
the field the program reads). -/
structure DMResponse where
  Rows : List DMRow
deriving Repr, DecidableEq

/-- `maps.DistanceMatrixRequest` as built at main.go lines 238-245.  The Go
code renders the origin coordinate to a decimal string with
`fmt.Sprintf("%f,%f", lat, lon)` (line 217); the request is modelled with the
coordinate pair itself, since no claim depends on the decimal rendering. -/
structure DMRequest where
  Origins : List (Rat × Rat)
  Destinations : List String
  Language : String
  DepartureTime : String
  Mode : String
  Units : String
deriving Repr, DecidableEq

/-- The external `distanceMatrixRetriever` interface (main.go lines 35-37):
a call either returns a response or a non-nil error. -/
def Retriever : Type := DMRequest → Except String DMResponse

/-- Substring test on character lists, the semantics of Go
`strings.Contains(s, sub)`: `sub` occurs contiguously in `s` (an empty `sub`
always occurs). -/
def listContainsSub (sub : List Char) : List Char → Bool
  | [] => sub.isEmpty
  | c :: t => sub.isPrefixOf (c :: t) || listContainsSub sub t

/-- The keyword predicate of main.go line 127:
`strings.Contains(strings.ToLower(truck.FoodItems), strings.ToLower(searchTerm))`.
Lower-casing is per character; `Char.toLower` agrees with Go `strings.ToLower`
on ASCII, and no claim depends on non-ASCII case mapping. -/
def matchesSearch (searchTerm : String) (truck : foodTruckInfo) : Bool :=
  listContainsSub (searchTerm.toList.map Char.toLower)
    (truck.FoodItems.toList.map Char.toLower)

/-- The keyword step of `searchFoodTrucks` (main.go lines 122-133): with a
non-empty term, the append loop of lines 126-130; otherwise the base list is
passed through (line 132) without copy. -/
def keywordStep (searchList : List foodTruckInfo) (searchTerm : String) :
    List foodTruckInfo :=
  if 0 < searchTerm.length then
    searchList.foldl
      (fun acc truck => if matchesSearch searchTerm truck then acc ++ [truck] else acc) []
  else searchList

/-- Go `strconv.Atoi`: an optional sign followed by at least one ASCII digit,
with the 64-bit signed range check (out-of-range input yields `ErrRange`,
i.e. a non-nil error). -/
def goAtoi (s : String) : Except String Int :=
  match s.toList with
  | [] => .error "invalid syntax"
  | c :: cs =>
    let signDigits : Bool × List Char :=
      if c = '-' then (true, cs) else if c = '+' then (false, cs) else (false, c :: cs)
    if signDigits.2 = [] then .error "invalid syntax"
    else if signDigits.2.all Char.isDigit then
      let mag : Nat := signDigits.2.foldl (fun a ch => a * 10 + (ch.toNat - 48)) 0
      let v : Int := if signDigits.1 then -(mag : Int) else (mag : Int)
      if -(2 ^ 63) ≤ v ∧ v < 2 ^ 63 then .ok v else .error "value out of range"
    else .error "invalid syntax"

/-- Go's conversion `uint(recv)` of a (64-bit) signed integer to a 64-bit
unsigned integer: reduction modulo `2^64` (main.go line 190). -/
def uintOfInt (v : Int) : Nat := (v % (2 ^ 64 : Int)).toNat

/-- The struct literal of main.go lines 182-191: build a `foodTruckInfo` from
one CSV row and the already-parsed value of column 20.  Column 14 and 15 are
joined as `fmt.Sprintf("%s,%s", line[14], line[15])` (line 188). -/
def rowToInfo (line : List String) (recv : Int) : foodTruckInfo :=
  ⟨line.getD 1 "", line.getD 2 "", line.getD 5 "", line.getD 10 "", line.getD 11 "",
    line.getD 14 "" ++ "," ++ line.getD 15 "", uintOfInt recv⟩

/-- The value of column 20 of a row under `goAtoi`, with an arbitrary default
on a parse failure; used only to state results about runs in which every row
parses. -/
def rowReceived (line : List String) : Int :=
  match goAtoi (line.getD 20 "") with
  | .ok v => v
  | .error _ => 0

/-- The row loop of `readFoodTruckData` (main.go lines 177-198).  Indexing
`line[20]` panics when the row has at most 20 fields; a parse failure of
column 20 returns the error (lines 178-181); only rows whose status column is
exactly "APPROVED" are appended (lines 195-197). -/
def readRows : List (List String) → List foodTruckInfo → GoOutcome (List foodTruckInfo)
  | [], acc => .ok acc
  | line :: rest, acc =>
    if line.length ≤ 20 then .panicked "index out of range"
    else
      match goAtoi (line.getD 20 "") with
      | .error e => .error e
      | .ok recv =>
        let info := rowToInfo line recv
        if info.Status = "APPROVED" then readRows rest (acc ++ [info])
        else readRows rest acc

/-- `readFoodTruckData` (main.go lines 160-201) on the parsed CSV rows.  The
file-opening and CSV-parsing collaborators are external; their error paths
(lines 163-172) return the underlying error unchanged and are outside every
claim.  `lines[1:]` (line 177) panics on an empty file. -/
def readFoodTruckData (lines : List (List String)) : GoOutcome (List foodTruckInfo) :=
  match lines with
  | [] => .panicked "slice bounds out of range"
  | _header :: rows => readRows rows []

/-- The request built for batch `i` (main.go lines 221-245): `startIdx = i*25`,
`endIdx = min(len(allTrucks), startIdx+25)`, destinations are the `LatLon`
strings of `allTrucks[startIdx:endIdx]`, with one origin and the constant
request fields of lines 238-245. -/
def batchRequest (origin : Rat × Rat) (allTrucks : List foodTruckInfo) (i : Nat) :
    DMRequest :=
  ⟨[origin],
    ((allTrucks.drop (i * 25)).take (min allTrucks.length (i * 25 + 25) - i * 25)).map
      foodTruckInfo.LatLon,
    "en", "now", "walking", "metric"⟩

/-- The response-element loop of main.go lines 257-261: element `v` of the
batch starting at `idx - v`'s offset decides truck `allTrucks[idx + v]`; the
positional index into `allTrucks` panics when out of range. -/
def collectElems (allTrucks : List foodTruckInfo) :
    Nat → List DMElement → List foodTruckInfo → GoOutcome (List foodTruckInfo)
  | _, [], acc => .ok acc
  | idx, elem :: rest, acc =>
    if elem.Status = "OK" ∧ elem.Distance.Meters < 1000 then
      match allTrucks[idx]? with
      | some t => collectElems allTrucks (idx + 1) rest (acc ++ [t])
      | none => .panicked "index out of range"
    else collectElems allTrucks (idx + 1) rest acc

/-- The batch loop of `getWalkableTrucks` (main.go lines 221-263), additionally
recording every request handed to the retriever (needed to state the batching
claims; the recording has no effect on the computed results).  A retriever
error panics (lines 247-250); `resp.Rows[0]` (line 257) panics on a response
with no rows. -/
def batchLoop (d : Retriever) (allTrucks : List foodTruckInfo) (origin : Rat × Rat) :
    Nat → Nat → List foodTruckInfo → List DMRequest →
    GoOutcome (List foodTruckInfo) × List DMRequest
  | _, 0, acc, reqs => (.ok acc, reqs)
  | i, rem + 1, acc, reqs =>
    let r := batchRequest origin allTrucks i
    match d r with
    | .error e => (.panicked e, reqs ++ [r])
    | .ok resp =>
      match resp.Rows with
      | [] => (.panicked "index out of range", reqs ++ [r])
      | row :: _ =>
        match collectElems allTrucks (i * 25) row.Elements acc with
        | .ok acc2 => batchLoop d allTrucks origin (i + 1) rem acc2 (reqs ++ [r])
        | .error e => (.error e, reqs ++ [r])
        | .panicked e => (.panicked e, reqs ++ [r])

/-- Result of `getWalkableTrucks`: the Go return value, where `GoOutcome.ok`
is a normal `return walkableTrucks, nil`, `GoOutcome.error` would be a return
with a non-nil error, and `GoOutcome.panicked` is a panic — plus the recorded
list of issued requests. -/
structure walkResult where
  outcome : GoOutcome (List foodTruckInfo)
  requests : List DMRequest
deriving Repr, DecidableEq

/-- `getWalkableTrucks` (main.go lines 205-266).  `numRequests` is
`int(math.Ceil(float64(n)/25))` (line 209), which for any list length that
fits a slice equals `(n + 24) / 25` in exact arithmetic.  Line 265 returns
`walkableTrucks, nil`: every normal return carries a nil error, so a normal
return is `GoOutcome.ok` and the `GoOutcome.error` outcome never occurs. -/
def getWalkableTrucks (d : Retriever) (allTrucks : List foodTruckInfo)
    (lat lon : Rat) : walkResult :=
  let numRequests := (allTrucks.length + 24) / 25
  match batchLoop d allTrucks (lat, lon) 0 numRequests [] [] with
  | (.ok walkable, reqs) => ⟨.ok walkable, reqs⟩
  | (.error e, reqs) => ⟨.error e, reqs⟩
  | (.panicked e, reqs) => ⟨.panicked e, reqs⟩

/-- The contract of `sort.Slice(results, less)` at main.go lines 151-153 with
`less i j = results[i].Received > results[j].Received`: the slice is
reordered into a permutation that is non-increasing in `Received`.  Go
documents exactly this much — `sort.Slice` is NOT guaranteed to be stable
(that is `sort.SliceStable`) — so the development is parametric in the
sorting procedure, constrained by this contract. -/
def SortSliceContract (sortImpl : List foodTruckInfo → List foodTruckInfo) : Prop :=
  ∀ l : List foodTruckInfo,
    (sortImpl l).Perm l ∧ (sortImpl l).Pairwise (fun a b => b.Received ≤ a.Received)

/-- Result of `searchFoodTrucks`: the returned list (or a panic), the contents
of the caller's `searchList` backing array after the call (Go slices alias:
line 132 passes the base array through, and `sort.Slice` at line 151 sorts in
place), and the recorded distance-matrix requests issued on the caller's
behalf. -/
structure searchResult where
  outcome : GoOutcome (List foodTruckInfo)
  baseAfter : List foodTruckInfo
  requests : List DMRequest
deriving Repr, DecidableEq

/-- `searchFoodTrucks` (main.go lines 116-156), parametric in the `sort.Slice`
procedure (see `SortSliceContract`).  The `debugging` flag only controls
printed diagnostics and is omitted.  Control flow: keyword step (lines
122-133); proximity step when both coordinates are non-zero (lines 140-145),
whose non-nil error or panic propagates as a panic (line 143); newest-first
in-place sort (lines 147-154).  When the keyword step passed the base list
through (line 132), `results` aliases `searchList`, so the in-place sort
reorders the base list itself; in every other path the base list is left as
it was (the keyword loop and `getWalkableTrucks` build fresh lists with
`append`). -/
def searchFoodTrucks (sortImpl : List foodTruckInfo → List foodTruckInfo)
    (searchList : List foodTruckInfo) (distRetriever : Retriever)
    (searchTerm : String) (lat lon : Rat) (newestFirst : Bool) : searchResult :=
  let results := keywordStep searchList searchTerm
  if lat ≠ 0 ∧ lon ≠ 0 then
    match getWalkableTrucks distRetriever results lat lon with
    | ⟨.ok walkable, reqs⟩ =>
        ⟨.ok (if newestFirst then sortImpl walkable else walkable), searchList, reqs⟩
    | ⟨.error e, reqs⟩ => ⟨.panicked e, searchList, reqs⟩
    | ⟨.panicked e, reqs⟩ => ⟨.panicked e, searchList, reqs⟩
  else
    if newestFirst then
      ⟨.ok (sortImpl results),
        if 0 < searchTerm.length then searchList else sortImpl results, []⟩
    else ⟨.ok results, searchList, []⟩

/-! ### Specification-side functions

Pure descriptions of what the proximity filter retains, used to state the
claims about `getWalkableTrucks`. -/

/-- The elements of the first row of the response the retriever gives for
batch `i` (empty when the call fails or the response has no rows). -/
def elemsFor (d : Retriever) (allTrucks : List foodTruckInfo) (origin : Rat × Rat)
    (i : Nat) : List DMElement :=
  match d (batchRequest origin allTrucks i) with
  | .ok resp =>
    match resp.Rows with
    | row :: _ => row.Elements
    | [] => []
  | .error _ => []

/-- The candidates one batch retains: response element number `v` (counting
from the batch start `idx`) retains candidate `allTrucks[idx + v]` exactly
when its status is "OK" and its distance is strictly below 1000 meters. -/
def keptForBatch (allTrucks : List foodTruckInfo) :
    Nat → List DMElement → List foodTruckInfo
  | _, [] => []
  | idx, elem :: rest =>
    (if elem.Status = "OK" ∧ elem.Distance.Meters < 1000 then allTrucks[idx]?.toList
      else []) ++ keptForBatch allTrucks (idx + 1) rest

/-- The candidates retained by the consecutive batches `i, i+1, ..., i+rem-1`,
in batch order. -/
def keptFrom (d : Retriever) (allTrucks : List foodTruckInfo) (origin : Rat × Rat) :
    Nat → Nat → List foodTruckInfo
  | _, 0 => []
  | i, rem + 1 =>
    keptForBatch allTrucks (i * 25) (elemsFor d allTrucks origin i) ++
      keptFrom d allTrucks origin (i + 1) rem

/-- A retriever is well formed when every call succeeds with at least one
response row whose element count matches the number of destinations of the
request — the shape the external distance-matrix API documents. -/
def RetrieverWellFormed (d : Retriever) : Prop :=
  ∀ r : DMRequest, ∃ resp row rest,
    d r = .ok resp ∧ resp.Rows = row :: rest ∧
      row.Elements.length = r.Destinations.length

/-! ### Concrete sorting procedures

Two procedures satisfying `SortSliceContract`: a stable insertion sort
(a later element is inserted after every element with an equal key) and an
anti-stable one (a later element is inserted before every element with an
equal key).  Both are admissible behaviors of `sort.Slice`. -/

/-- Insert `x` into a non-increasing list, placing it before the first element
`y` with `before y x = true`. -/
def insertByDesc (before : foodTruckInfo → foodTruckInfo → Bool)
    (x : foodTruckInfo) : List foodTruckInfo → List foodTruckInfo
  | [] => [x]
  | y :: t => if before y x then x :: y :: t else y :: insertByDesc before x t

/-- Insertion sort into non-increasing `Received` order, parametric in the
tie-placement policy `before`. -/
def sortByDesc (before : foodTruckInfo → foodTruckInfo → Bool)
    (l : List foodTruckInfo) : List foodTruckInfo :=
  l.foldl (fun acc x => insertByDesc before x acc) []

/-- Stable non-increasing sort: a later element with an equal key stays after
the earlier ones. -/
def stableSortRecv : List foodTruckInfo → List foodTruckInfo :=
  sortByDesc (fun y x => decide (y.Received < x.Received))

/-- Anti-stable non-increasing sort: a later element with an equal key is
placed before the earlier ones. -/
def antiSortRecv : List foodTruckInfo → List foodTruckInfo :=
  sortByDesc (fun y x => decide (y.Received ≤ x.Received))

/-- The property "l is the result of stably sorting pre into non-increasing
`Received` order": l is non-increasing and, key by key, lists the records
with that key in exactly the order pre does. -/
def StableDescOf (pre l : List foodTruckInfo) : Prop :=
  l.Pairwise (fun a b => b.Received ≤ a.Received) ∧
    ∀ k : Nat, l.filter (fun t => t.Received == k) = pre.filter (fun t => t.Received == k)

/-! ### Concrete data for witnesses and counterexamples -/

/-- A sample record. -/
def demoTruck (nm : String) (recv : Nat) : foodTruckInfo :=
  ⟨nm, "Truck", "1 Main St", "APPROVED", "tacos: burritos: soda", "37.7,-122.4", recv⟩

/-- A retriever that answers every request with one row of per-destination
"OK" elements at 500 meters. -/
def okRetr : Retriever :=
  fun r => .ok ⟨[⟨r.Destinations.map (fun _ => ⟨"OK", ⟨"0.5 km", 500⟩⟩)⟩]⟩

/-- A retriever that fails every call. -/
def failRetr : Retriever := fun _ => .error "maps: request denied"

/-- A sample record whose `LatLon` string is its index, so that different
batches produce different requests. -/
def idxTruck (i : Nat) : foodTruckInfo :=
  ⟨toString i, "Truck", "1 Main St", "APPROVED", "tacos", toString i, i⟩

/-- A retriever that answers the batch starting at candidate 0 like `okRetr`
and fails every other call — so over several batches the failure lands only
after a full batch of results has already been processed. -/
def failSecondRetr : Retriever := fun r =>
  if r.Destinations.getD 0 "" = "0" then
    .ok ⟨[⟨r.Destinations.map (fun _ => ⟨"OK", ⟨"0.5 km", 500⟩⟩)⟩]⟩
  else .error "maps: quota exceeded"

/-- A header row for the sample CSV data (its content is ignored). -/
def demoHeader : List String := List.replicate 21 "col"

/-- A sample approved CSV row (21 fields; column 10 is the status, column 11
the offerings, columns 14-15 the coordinate, column 20 the freshness). -/
def demoRowApproved : List String :=
  ["0", "Truck A", "Truck", "3", "4", "1 Main St", "6", "7", "8", "9",
    "APPROVED", "tacos; pretzels", "12", "13", "37.76", "-122.41", "16", "17",
    "18", "19", "7"]

/-- A sample non-approved CSV row. -/
def demoRowExpired : List String :=
  ["0", "Truck B", "Truck", "3", "4", "2 Main St", "6", "7", "8", "9",
    "EXPIRED", "soup", "12", "13", "37.76", "-122.41", "16", "17", "18", "19", "9"]

/-- A sample row whose freshness column is not numeric. -/
def demoRowBadRecv : List String :=
  ["0", "Truck C", "Truck", "3", "4", "3 Main St", "6", "7", "8", "9",
    "APPROVED", "salads", "12", "13", "37.76", "-122.41", "16", "17", "18", "19",
    "oops"]

/-- A sample row whose freshness column is the negative integer "-1". -/
def demoRowNegRecv : List String :=
  ["0", "Truck D", "Truck", "3", "4", "4 Main St", "6", "7", "8", "9",
    "APPROVED", "pretzels", "12", "13", "37.76", "-122.41", "16", "17", "18", "19",
    "-1"]

/-! ### General lemmas -/

theorem foldl_append_filter {α : Type} (p : α → Bool) (l : List α) :
    ∀ acc : List α,
      l.foldl (fun a x => if p x then a ++ [x] else a) acc = acc ++ l.filter p := by
  induction l with
  | nil => intro acc; simp
  | cons x l ih => intro acc; by_cases h : p x <;> simp [List.filter_cons, h, ih]

theorem keywordStep_eq_filter (searchList : List foodTruckInfo) (searchTerm : String)
    (h : 0 < searchTerm.length) :
    keywordStep searchList searchTerm = searchList.filter (matchesSearch searchTerm) := by
  simp [keywordStep, h, foldl_append_filter]

theorem readRows_spec (rows : List (List String)) :
    ∀ acc : List foodTruckInfo,
      (∀ row ∈ rows, 20 < row.length) →
      (∀ row ∈ rows, ∃ v, goAtoi (row.getD 20 "") = .ok v) →
      readRows rows acc = .ok (acc ++
        (rows.filter (fun r => r.getD 10 "" == "APPROVED")).map
          (fun r => rowToInfo r (rowReceived r))) := by
  induction rows with
  | nil => intro acc _ _; simp [readRows]
  | cons row rest ih =>
    intro acc hlen hok
    have h20 : ¬ row.length ≤ 20 := by
      have := hlen row (by simp)
      omega
    obtain ⟨v, hv⟩ := hok row (by simp)
    have hrecv : rowReceived row = v := by unfold rowReceived; rw [hv]
    have h1 : ∀ r ∈ rest, 20 < r.length := fun r hr => hlen r (List.mem_cons_of_mem _ hr)
    have h2 : ∀ r ∈ rest, ∃ w, goAtoi (r.getD 20 "") = Except.ok w :=
      fun r hr => hok r (List.mem_cons_of_mem _ hr)
    have ihk : ∀ a, readRows rest a = .ok (a ++
        (rest.filter (fun r => r.getD 10 "" == "APPROVED")).map
          (fun r => rowToInfo r (rowReceived r))) := fun a => ih a h1 h2
    simp only [readRows, if_neg h20, hv]
    have hsv : (rowToInfo row v).Status = row.getD 10 "" := rfl
    rw [hsv, List.filter_cons]
    by_cases hst : row.getD 10 "" = "APPROVED"
    · have hb : (row.getD 10 "" == "APPROVED") = true := by rw [beq_iff_eq]; exact hst
      rw [if_pos hst, hb, ihk (acc ++ [rowToInfo row v])]
      simp [hrecv]
    · have hb : (row.getD 10 "" == "APPROVED") = false := by
        rw [beq_eq_false_iff_ne]; exact hst
      rw [if_neg hst, hb, ihk acc]
      simp

/-- C4: `readFoodTruckData` returns exactly the data rows (the header row at
index 0 is skipped) whose status column (column 10) equals "APPROVED" under
case-sensitive exact comparison, converted to records in file order; rows
with any other status are dropped silently with no error.  Hypotheses: every
data row has the 21 columns the code indexes and a parseable freshness
column — otherwise the run takes the panic or error path settled by C9. -/
theorem readFoodTruckData_approved_filter (header : List String)
    (rows : List (List String))
    (hlen : ∀ row ∈ rows, 20 < row.length)
    (hok : ∀ row ∈ rows, ∃ v, goAtoi (row.getD 20 "") = .ok v) :
    readFoodTruckData (header :: rows) =
      .ok ((rows.filter (fun r => r.getD 10 "" == "APPROVED")).map
        (fun r => rowToInfo r (rowReceived r))) := by
  simpa [readFoodTruckData] using readRows_spec rows [] hlen hok

/-- Witness for C4 on concrete data: one approved and one expired row load to
just the approved record, silently and without error. -/
theorem readFoodTruckData_approved_filter_witness :
    readFoodTruckData [demoHeader, demoRowApproved, demoRowExpired] =
      .ok (([demoRowApproved, demoRowExpired].filter
          (fun r => r.getD 10 "" == "APPROVED")).map
        (fun r => rowToInfo r (rowReceived r))) :=
  readFoodTruckData_approved_filter demoHeader [demoRowApproved, demoRowExpired]
    (by
      intro row hr
      simp only [List.mem_cons, List.not_mem_nil, or_false] at hr
      rcases hr with h | h <;> subst h <;> decide)
    (by
      intro row hr
      simp only [List.mem_cons, List.not_mem_nil, or_false] at hr
      rcases hr with h | h <;> subst h
      · exact ⟨7, by rfl⟩
      · exact ⟨9, by rfl⟩)

theorem readRows_error (rows : List (List String)) :
    ∀ acc : List foodTruckInfo,
      (∀ row ∈ rows, 20 < row.length) →
      (∃ row ∈ rows, ∃ e, goAtoi (row.getD 20 "") = .error e) →
      ∃ e, readRows rows acc = .error e := by
  induction rows with
  | nil =>
    intro acc _ hbad
    obtain ⟨row, hr, _⟩ := hbad
    exact absurd hr (List.not_mem_nil row)
  | cons row rest ih =>
    intro acc hlen hbad
    have h20 : ¬ row.length ≤ 20 := by
      have := hlen row (by simp)
      omega
    have h1 : ∀ r ∈ rest, 20 < r.length := fun r hr => hlen r (List.mem_cons_of_mem _ hr)
    cases hA : goAtoi (row.getD 20 "") with
    | error e => exact ⟨e, by simp only [readRows, if_neg h20, hA]⟩
    | ok v =>
      have hrest : ∃ r ∈ rest, ∃ e, goAtoi (r.getD 20 "") = .error e := by
        obtain ⟨r, hr, e, he⟩ := hbad
        rcases List.mem_cons.mp hr with h | h
        · subst h
          rw [hA] at he
          cases he
        · exact ⟨r, h, e, he⟩
      by_cases hst : (rowToInfo row v).Status = "APPROVED"
      · obtain ⟨e, he⟩ := ih (acc ++ [rowToInfo row v]) h1 hrest
        refine ⟨e, ?_⟩
        simp only [readRows, if_neg h20, hA]
        rw [if_pos hst]
        exact he
      · obtain ⟨e, he⟩ := ih acc h1 hrest
        refine ⟨e, ?_⟩
        simp only [readRows, if_neg h20, hA]
        rw [if_neg hst]
        exact he

/-- C9: `readFoodTruckData` fails with a returned error — producing no record
list — whenever any data row's freshness column (column 20) is not parseable
as an integer; a single malformed row aborts the whole load (hypothesis: every
data row has the 21 columns the code indexes, the shape the CSV reader
guarantees). -/
theorem readFoodTruckData_parse_error_aborts (header : List String)
    (rows : List (List String))
    (hlen : ∀ row ∈ rows, 20 < row.length)
    (hbad : ∃ row ∈ rows, ∃ e, goAtoi (row.getD 20 "") = .error e) :
    ∃ e, readFoodTruckData (header :: rows) = .error e := by
  simpa [readFoodTruckData] using readRows_error rows [] hlen hbad

/-- Witness for C9 on concrete data: a single row with freshness field "oops"
aborts the load with an error even though other rows are well formed. -/
theorem readFoodTruckData_parse_error_aborts_witness :
    ∃ e, readFoodTruckData [demoHeader, demoRowApproved, demoRowBadRecv] =
      .error e :=
  readFoodTruckData_parse_error_aborts demoHeader [demoRowApproved, demoRowBadRecv]
    (by
      intro row hr
      simp only [List.mem_cons, List.not_mem_nil, or_false] at hr
      rcases hr with h | h <;> subst h <;> decide)
    ⟨demoRowBadRecv, by simp, "invalid syntax", by rfl⟩

/-- C10: a data row whose freshness column is the negative integer "-1" does
not make `readFoodTruckData` fail: `strconv.Atoi` parses it and the `uint`
conversion reduces it modulo `2^64`, so the record carries the largest
possible `Received` value `2^64 - 1` — at least the `Received` of any record
the loader can produce, so it sorts first under newest-first ordering. -/
theorem readFoodTruckData_negative_received (header row : List String)
    (hlen : 20 < row.length) (hneg : row.getD 20 "" = "-1")
    (hst : row.getD 10 "" = "APPROVED") :
    readFoodTruckData [header, row] = .ok [rowToInfo row (-1)] ∧
      (rowToInfo row (-1)).Received = 2 ^ 64 - 1 ∧
      ∀ v : Int, uintOfInt v ≤ 2 ^ 64 - 1 := by
  refine ⟨?_, ?_, ?_⟩
  · have hA : goAtoi (row.getD 20 "") = .ok (-1) := by rw [hneg]; rfl
    have h20 : ¬ row.length ≤ 20 := by omega
    have hsv : (rowToInfo row (-1)).Status = row.getD 10 "" := rfl
    simp only [readFoodTruckData, readRows, if_neg h20, hA]
    rw [if_pos (hsv.trans hst)]
    simp [readRows]
  · show uintOfInt (-1) = 2 ^ 64 - 1
    decide
  · intro v
    have hmod : uintOfInt v = (v % 18446744073709551616).toNat := by
      norm_num [uintOfInt]
    have h1 : (0 : Int) ≤ v % 18446744073709551616 :=
      Int.emod_nonneg v (by norm_num)
    have h2 : v % 18446744073709551616 < 18446744073709551616 :=
      Int.emod_lt_of_pos v (by norm_num)
    rw [hmod]
    omega

/-- Witness for C10 on concrete data: the row with freshness "-1" loads
successfully and its record carries `Received = 2^64 - 1`. -/
theorem readFoodTruckData_negative_received_witness :
    readFoodTruckData [demoHeader, demoRowNegRecv] = .ok [rowToInfo demoRowNegRecv (-1)] ∧
      (rowToInfo demoRowNegRecv (-1)).Received = 2 ^ 64 - 1 ∧
      ∀ v : Int, uintOfInt v ≤ 2 ^ 64 - 1 :=
  readFoodTruckData_negative_received demoHeader demoRowNegRecv (by decide) (by rfl) (by rfl)

theorem collectElems_ne_error (allTrucks : List foodTruckInfo) :
    ∀ (es : List DMElement) (idx : Nat) (acc : List foodTruckInfo) (e : String),
      collectElems allTrucks idx es acc ≠ .error e := by
  intro es
  induction es with
  | nil => intro idx acc e h; cases h
  | cons elem rest ih =>
    intro idx acc e
    simp only [collectElems]
    by_cases hp : elem.Status = "OK" ∧ elem.Distance.Meters < 1000
    · rw [if_pos hp]
      cases h : allTrucks[idx]? with
      | some t => exact ih (idx + 1) (acc ++ [t]) e
      | none => intro hc; cases hc
    · rw [if_neg hp]
      exact ih (idx + 1) acc e

theorem batchLoop_ne_error (d : Retriever) (allTrucks : List foodTruckInfo)
    (origin : Rat × Rat) :
    ∀ (rem i : Nat) (acc : List foodTruckInfo) (reqs : List DMRequest) (e : String),
      (batchLoop d allTrucks origin i rem acc reqs).1 ≠ .error e := by
  intro rem
  induction rem with
  | zero => intro i acc reqs e h; cases h
  | succ rem ih =>
    intro i acc reqs e
    simp only [batchLoop]
    cases hd : d (batchRequest origin allTrucks i) with
    | error e2 => dsimp only; intro h; cases h
    | ok resp =>
      dsimp only
      cases hrows : resp.Rows with
      | nil => intro h; cases h
      | cons row rest =>
        dsimp only
        cases hc : collectElems allTrucks (i * 25) row.Elements acc with
        | ok acc2 => exact ih (i + 1) acc2 (reqs ++ [batchRequest origin allTrucks i]) e
        | error e2 => exact absurd hc (collectElems_ne_error allTrucks row.Elements (i * 25) acc e2)
        | panicked e2 => intro h; cases h

theorem batchLoop_error_panics (d : Retriever) (allTrucks : List foodTruckInfo)
    (origin : Rat × Rat) :
    ∀ (rem i : Nat) (acc : List foodTruckInfo) (reqs : List DMRequest),
      (∀ r ∈ reqs, ∀ e, d r ≠ .error e) →
      (∃ r ∈ (batchLoop d allTrucks origin i rem acc reqs).2, ∃ e, d r = .error e) →
      ∃ e, (batchLoop d allTrucks origin i rem acc reqs).1 = .panicked e := by
  intro rem
  induction rem with
  | zero =>
    intro i acc reqs hclean hex
    obtain ⟨r, hr, e, he⟩ := hex
    rw [show (batchLoop d allTrucks origin i 0 acc reqs).2 = reqs from rfl] at hr
    exact absurd he (hclean r hr e)
  | succ rem ih =>
    intro i acc reqs hclean hex
    cases hd : d (batchRequest origin allTrucks i) with
    | error e => exact ⟨e, by simp [batchLoop, hd]⟩
    | ok resp =>
      cases hrows : resp.Rows with
      | nil => exact ⟨"index out of range", by simp [batchLoop, hd, hrows]⟩
      | cons row rest =>
        cases hc : collectElems allTrucks (i * 25) row.Elements acc with
        | error e2 =>
          exact absurd hc (collectElems_ne_error allTrucks row.Elements (i * 25) acc e2)
        | panicked e2 => exact ⟨e2, by simp [batchLoop, hd, hrows, hc]⟩
        | ok acc2 =>
          have hred : batchLoop d allTrucks origin i (rem + 1) acc reqs =
              batchLoop d allTrucks origin (i + 1) rem acc2
                (reqs ++ [batchRequest origin allTrucks i]) := by
            simp [batchLoop, hd, hrows, hc]
          rw [hred] at hex ⊢
          refine ih (i + 1) acc2 (reqs ++ [batchRequest origin allTrucks i]) ?_ hex
          intro r hr e
          rcases List.mem_append.mp hr with h | h
          · exact hclean r h e
          · have hr0 : r = batchRequest origin allTrucks i := List.mem_singleton.mp h
            rw [hr0, hd]
            intro hcon
            cases hcon

theorem getWalkableTrucks_requests_eq (d : Retriever) (allTrucks : List foodTruckInfo)
    (lat lon : Rat) :
    (getWalkableTrucks d allTrucks lat lon).requests =
      (batchLoop d allTrucks (lat, lon) 0 ((allTrucks.length + 24) / 25) [] []).2 := by
  unfold getWalkableTrucks
  rcases hb : batchLoop d allTrucks (lat, lon) 0 ((allTrucks.length + 24) / 25) [] [] with
    ⟨out, reqs⟩
  cases out <;> simp [hb]

/-- C3 amended: an error from any external distance-lookup call the filter
actually issues aborts the entire operation by PANICKING (main.go line 249):
whatever the retriever, the input, and however many batches were already
processed, a failing issued call makes the outcome a panic, which carries no
result list — the partial results from prior batches are discarded.  The
error is never RETURNED to the caller: `getWalkableTrucks` always returns a
nil error on a normal return (line 265), so the `GoOutcome.error` outcome is
impossible. -/
theorem getWalkableTrucks_error_panics :
    (∀ (d : Retriever) (trucks : List foodTruckInfo) (lat lon : Rat) (e : String),
        (getWalkableTrucks d trucks lat lon).outcome ≠ .error e) ∧
      ∀ (d : Retriever) (trucks : List foodTruckInfo) (lat lon : Rat),
        (∃ r ∈ (getWalkableTrucks d trucks lat lon).requests, ∃ e, d r = .error e) →
        ∃ e, (getWalkableTrucks d trucks lat lon).outcome = .panicked e := by
  constructor
  · intro d trucks lat lon e
    unfold getWalkableTrucks
    cases hb : batchLoop d trucks (lat, lon) 0 ((trucks.length + 24) / 25) [] [] with
    | mk out reqs =>
      cases out with
      | ok w => simp [hb]
      | error e2 =>
        exact absurd (congrArg Prod.fst hb)
          (batchLoop_ne_error d trucks (lat, lon) _ 0 [] [] e2)
      | panicked e2 => simp [hb]
  · intro d trucks lat lon hex
    rw [getWalkableTrucks_requests_eq] at hex
    obtain ⟨e, he⟩ := batchLoop_error_panics d trucks (lat, lon)
      ((trucks.length + 24) / 25) 0 [] [] (by simp) hex
    refine ⟨e, ?_⟩
    rcases hb : batchLoop d trucks (lat, lon) 0 ((trucks.length + 24) / 25) [] [] with
      ⟨out, reqs⟩
    rw [hb] at he
    simp only at he
    subst he
    simp [getWalkableTrucks, hb]

/-- C3 counterexample: the claim says a failing external call makes the error
be surfaced as the RETURNED error of `getWalkableTrucks`; on a concrete
one-candidate input with an always-failing retriever no returned-error
outcome occurs (the code panics instead). -/
theorem getWalkableTrucks_error_not_returned :
    ¬ ∃ e : String,
        (getWalkableTrucks failRetr [demoTruck "A" 1] 1 1).outcome = .error e := by
  intro h
  obtain ⟨e, he⟩ := h
  have hp : (getWalkableTrucks failRetr [demoTruck "A" 1] 1 1).outcome =
      .panicked "maps: request denied" := by decide
  rw [hp] at he
  cases he

/-- Witness for C3 (amended): the returned-error outcome is impossible for a
concrete call, and on a concrete 60-candidate run whose retriever succeeds on
the first batch (25 candidates already retained) and fails on the second, the
whole filter operation panics after exactly two calls, returning none of the
already-processed partial results. -/
theorem getWalkableTrucks_error_panics_witness :
    (getWalkableTrucks okRetr [demoTruck "A" 1] 1 1).outcome ≠ .error "x" ∧
      (∃ e, (getWalkableTrucks failSecondRetr ((List.range 60).map idxTruck)
          1 1).outcome = .panicked e) ∧
      (getWalkableTrucks failSecondRetr ((List.range 60).map idxTruck)
          1 1).requests.length = 2 :=
  ⟨getWalkableTrucks_error_panics.1 okRetr [demoTruck "A" 1] 1 1 "x",
    getWalkableTrucks_error_panics.2 failSecondRetr ((List.range 60).map idxTruck) 1 1
      ⟨batchRequest (1, 1) ((List.range 60).map idxTruck) 1, by decide,
        "maps: quota exceeded", by rfl⟩,
    by decide⟩

theorem insertByDesc_perm (before : foodTruckInfo → foodTruckInfo → Bool)
    (x : foodTruckInfo) :
    ∀ l : List foodTruckInfo, (insertByDesc before x l).Perm (x :: l) := by
  intro l
  induction l with
  | nil => simp [insertByDesc]
  | cons y t ih =>
    simp only [insertByDesc]
    by_cases hb : before y x = true
    · rw [if_pos hb]
    · rw [if_neg hb]
      exact (ih.cons y).trans (List.Perm.swap x y t)

theorem insertByDesc_pairwise (before : foodTruckInfo → foodTruckInfo → Bool)
    (hbt : ∀ a c, before a c = true → a.Received ≤ c.Received)
    (hbf : ∀ a c, before a c = false → c.Received ≤ a.Received)
    (x : foodTruckInfo) :
    ∀ l : List foodTruckInfo, l.Pairwise (fun a b => b.Received ≤ a.Received) →
      (insertByDesc before x l).Pairwise (fun a b => b.Received ≤ a.Received) := by
  intro l
  induction l with
  | nil => intro _; simp [insertByDesc]
  | cons y t ih =>
    intro hp
    rcases List.pairwise_cons.mp hp with ⟨hy, ht⟩
    simp only [insertByDesc]
    by_cases hb : before y x = true
    · rw [if_pos hb]
      refine List.pairwise_cons.mpr ⟨?_, hp⟩
      intro z hz
      rcases List.mem_cons.mp hz with h | h
      · rw [h]; exact hbt y x hb
      · exact le_trans (hy z h) (hbt y x hb)
    · rw [if_neg hb]
      have hbf2 : before y x = false := by revert hb; cases before y x <;> simp
      refine List.pairwise_cons.mpr ⟨?_, ih ht⟩
      intro z hz
      rcases List.mem_cons.mp ((insertByDesc_perm before x t).mem_iff.mp hz) with h | h
      · rw [h]; exact hbf y x hbf2
      · exact hy z h

theorem sortByDesc_spec (before : foodTruckInfo → foodTruckInfo → Bool)
    (hbt : ∀ a c, before a c = true → a.Received ≤ c.Received)
    (hbf : ∀ a c, before a c = false → c.Received ≤ a.Received) :
    ∀ l acc : List foodTruckInfo,
      acc.Pairwise (fun a b => b.Received ≤ a.Received) →
      (l.foldl (fun a x => insertByDesc before x a) acc).Perm (acc ++ l) ∧
        (l.foldl (fun a x => insertByDesc before x a) acc).Pairwise
          (fun a b => b.Received ≤ a.Received) := by
  intro l
  induction l with
  | nil => intro acc h; simpa using h
  | cons x t ih =>
    intro acc hacc
    have h1 := ih (insertByDesc before x acc)
      (insertByDesc_pairwise before hbt hbf x acc hacc)
    constructor
    · have step1 : (insertByDesc before x acc ++ t).Perm ((x :: acc) ++ t) :=
        (insertByDesc_perm before x acc).append_right t
      have step2 : ((x :: acc) ++ t).Perm (acc ++ x :: t) := by
        simpa using List.perm_middle.symm
      exact (h1.1.trans step1).trans step2
    · exact h1.2

theorem contract_sortByDesc (before : foodTruckInfo → foodTruckInfo → Bool)
    (hbt : ∀ a c, before a c = true → a.Received ≤ c.Received)
    (hbf : ∀ a c, before a c = false → c.Received ≤ a.Received) :
    SortSliceContract (sortByDesc before) := by
  intro l
  have h := sortByDesc_spec before hbt hbf l [] List.Pairwise.nil
  exact ⟨by simpa [sortByDesc] using h.1, by simpa [sortByDesc] using h.2⟩

theorem contract_stableSortRecv : SortSliceContract stableSortRecv :=
  contract_sortByDesc _
    (fun _ _ h => Nat.le_of_lt (of_decide_eq_true h))
    (fun _ _ h => Nat.le_of_not_lt (of_decide_eq_false h))

theorem contract_antiSortRecv : SortSliceContract antiSortRecv :=
  contract_sortByDesc _
    (fun _ _ h => of_decide_eq_true h)
    (fun _ _ h => Nat.le_of_not_le (of_decide_eq_false h))

/-- C5: with a non-empty keyword, the keyword step of `searchFoodTrucks`
retains exactly the records (in base order) whose offerings field contains
the keyword as a case-insensitive substring, and with no proximity filter or
sorting requested that sublist is the whole result, returned normally; a
keyword matching no record yields the empty result, not an error. -/
theorem searchFoodTrucks_keyword_filter
    (sortImpl : List foodTruckInfo → List foodTruckInfo)
    (searchList : List foodTruckInfo) (retr : Retriever) (searchTerm : String)
    (h : 0 < searchTerm.length) :
    keywordStep searchList searchTerm = searchList.filter (matchesSearch searchTerm) ∧
      (searchList.filter (matchesSearch searchTerm)).Sublist searchList ∧
      searchFoodTrucks sortImpl searchList retr searchTerm 0 0 false =
        ⟨.ok (searchList.filter (matchesSearch searchTerm)), searchList, []⟩ ∧
      ((∀ t ∈ searchList, matchesSearch searchTerm t = false) →
        searchFoodTrucks sortImpl searchList retr searchTerm 0 0 false =
          ⟨.ok [], searchList, []⟩) := by
  have hk := keywordStep_eq_filter searchList searchTerm h
  have hs : searchFoodTrucks sortImpl searchList retr searchTerm 0 0 false =
      ⟨.ok (searchList.filter (matchesSearch searchTerm)), searchList, []⟩ := by
    simp [searchFoodTrucks, hk]
  refine ⟨hk, List.filter_sublist searchList, hs, ?_⟩
  intro hnone
  rw [hs]
  have : searchList.filter (matchesSearch searchTerm) = [] := by
    rw [List.filter_eq_nil_iff]
    intro t ht
    simp [hnone t ht]
  rw [this]

/-- Witness for C5 on concrete data: searching for "TACO" applies the
case-insensitive filter with no request and no error. -/
theorem searchFoodTrucks_keyword_filter_witness :
    keywordStep [demoTruck "A" 1, demoTruck "B" 2] "TACO" =
        ([demoTruck "A" 1, demoTruck "B" 2].filter (matchesSearch "TACO")) ∧
      ([demoTruck "A" 1, demoTruck "B" 2].filter
          (matchesSearch "TACO")).Sublist [demoTruck "A" 1, demoTruck "B" 2] ∧
      searchFoodTrucks stableSortRecv [demoTruck "A" 1, demoTruck "B" 2] failRetr
          "TACO" 0 0 false =
        ⟨.ok ([demoTruck "A" 1, demoTruck "B" 2].filter (matchesSearch "TACO")),
          [demoTruck "A" 1, demoTruck "B" 2], []⟩ ∧
      ((∀ t ∈ [demoTruck "A" 1, demoTruck "B" 2], matchesSearch "TACO" t = false) →
        searchFoodTrucks stableSortRecv [demoTruck "A" 1, demoTruck "B" 2] failRetr
            "TACO" 0 0 false =
          ⟨.ok [], [demoTruck "A" 1, demoTruck "B" 2], []⟩) :=
  searchFoodTrucks_keyword_filter stableSortRecv [demoTruck "A" 1, demoTruck "B" 2]
    failRetr "TACO" (by decide)

theorem searchFoodTrucks_base_prox (sortImpl : List foodTruckInfo → List foodTruckInfo)
    (searchList : List foodTruckInfo) (retr : Retriever) (searchTerm : String)
    (lat lon : Rat) (newestFirst : Bool) (hprox : lat ≠ 0 ∧ lon ≠ 0) :
    (searchFoodTrucks sortImpl searchList retr searchTerm lat lon newestFirst).baseAfter =
      searchList := by
  rcases hgw : getWalkableTrucks retr (keywordStep searchList searchTerm) lat lon with
    ⟨out, reqs⟩
  cases out <;> simp [searchFoodTrucks, hprox, hgw]

/-- C1 counterexample: the claim says `searchFoodTrucks` leaves the base list
unchanged for every combination of options, including an empty keyword with
newest-first sorting; it fails at the concrete base list with `Received`
values 1 and 2, empty keyword, no coordinates, and newest-first requested,
for the contract-satisfying stable sorting procedure: the base array is
sorted in place. -/
theorem searchFoodTrucks_mutates_base :
    ¬ ∀ sortImpl : List foodTruckInfo → List foodTruckInfo,
        SortSliceContract sortImpl →
        ∀ (searchList : List foodTruckInfo) (retr : Retriever) (searchTerm : String)
          (lat lon : Rat) (newestFirst : Bool),
          (searchFoodTrucks sortImpl searchList retr searchTerm lat lon
              newestFirst).baseAfter = searchList := by
  intro h
  have h2 := h stableSortRecv contract_stableSortRecv
    [demoTruck "A" 1, demoTruck "B" 2] failRetr "" 0 0 true
  revert h2
  decide

/-- C1 amended: `searchFoodTrucks` leaves the base list unchanged whenever
the keyword is non-empty, or the proximity filter runs, or newest-first is
not requested; but when the keyword is empty, the proximity step is skipped,
and newest-first is requested, `results` aliases the base array (main.go line
132) and `sort.Slice` reorders the base list in place — it afterwards holds
the sorted output (a permutation of the records it held before). -/
theorem searchFoodTrucks_base_frame (sortImpl : List foodTruckInfo → List foodTruckInfo)
    (hC : SortSliceContract sortImpl) (searchList : List foodTruckInfo)
    (retr : Retriever) (searchTerm : String) (lat lon : Rat) (newestFirst : Bool) :
    ((0 < searchTerm.length ∨ (lat ≠ 0 ∧ lon ≠ 0) ∨ newestFirst = false) →
      (searchFoodTrucks sortImpl searchList retr searchTerm lat lon
          newestFirst).baseAfter = searchList) ∧
      (searchTerm.length = 0 → (lat = 0 ∨ lon = 0) → newestFirst = true →
        (searchFoodTrucks sortImpl searchList retr searchTerm lat lon
            newestFirst).baseAfter = sortImpl searchList ∧
          (searchFoodTrucks sortImpl searchList retr searchTerm lat lon
              newestFirst).baseAfter.Perm searchList) := by
  constructor
  · intro hcase
    by_cases hprox : lat ≠ 0 ∧ lon ≠ 0
    · exact searchFoodTrucks_base_prox sortImpl searchList retr searchTerm lat lon
        newestFirst hprox
    · rcases hcase with hterm | hp | hnew
      · cases newestFirst <;> simp [searchFoodTrucks, hprox, hterm]
      · exact absurd hp hprox
      · simp [searchFoodTrucks, hprox, hnew]
  · intro hterm hz hnew
    subst hnew
    have hprox : ¬ (lat ≠ 0 ∧ lon ≠ 0) := by
      rcases hz with h0 | h0 <;> simp [h0]
    have hks : keywordStep searchList searchTerm = searchList := by
      simp [keywordStep, hterm]
    have hbase : (searchFoodTrucks sortImpl searchList retr searchTerm lat lon
        true).baseAfter = sortImpl searchList := by
      simp [searchFoodTrucks, hprox, hterm, hks]
    exact ⟨hbase, hbase ▸ (hC searchList).1⟩

/-- Witness for C1 (amended): with a non-empty keyword the base list is
untouched, and with an empty keyword plus newest-first it afterwards holds
the sorted output. -/
theorem searchFoodTrucks_base_frame_witness :
    (searchFoodTrucks stableSortRecv [demoTruck "A" 1, demoTruck "B" 2] failRetr
          "taco" 0 0 true).baseAfter = [demoTruck "A" 1, demoTruck "B" 2] ∧
      (searchFoodTrucks stableSortRecv [demoTruck "A" 1, demoTruck "B" 2] failRetr
          "" 0 0 true).baseAfter = stableSortRecv [demoTruck "A" 1, demoTruck "B" 2] :=
  ⟨(searchFoodTrucks_base_frame stableSortRecv contract_stableSortRecv
      [demoTruck "A" 1, demoTruck "B" 2] failRetr "taco" 0 0 true).1
      (Or.inl (by decide)),
    ((searchFoodTrucks_base_frame stableSortRecv contract_stableSortRecv
      [demoTruck "A" 1, demoTruck "B" 2] failRetr "" 0 0 true).2 rfl (Or.inl rfl) rfl).1⟩

/-- C2 amended: when newest-first is requested and `searchFoodTrucks` returns
normally, the result is sorted in non-increasing order of `Received` and is a
permutation of the result the same call would produce without the sort step —
but the sort need not be stable: `sort.Slice` (unlike `sort.SliceStable`)
gives no guarantee on the relative order of records with equal `Received`. -/
theorem searchFoodTrucks_newest_sorted (sortImpl : List foodTruckInfo → List foodTruckInfo)
    (hC : SortSliceContract sortImpl) (searchList : List foodTruckInfo)
    (retr : Retriever) (searchTerm : String) (lat lon : Rat) :
    ∀ (l b : List foodTruckInfo) (rq : List DMRequest),
      searchFoodTrucks sortImpl searchList retr searchTerm lat lon true =
        ⟨.ok l, b, rq⟩ →
      l.Pairwise (fun a b => b.Received ≤ a.Received) ∧
        ∃ pre b2,
          searchFoodTrucks sortImpl searchList retr searchTerm lat lon false =
            ⟨.ok pre, b2, rq⟩ ∧ l.Perm pre := by
  intro l b rq heq
  by_cases hprox : lat ≠ 0 ∧ lon ≠ 0
  · rcases hgw : getWalkableTrucks retr (keywordStep searchList searchTerm) lat lon with
      ⟨out, reqs⟩
    cases out with
    | ok w =>
      have htrue : searchFoodTrucks sortImpl searchList retr searchTerm lat lon true =
          ⟨.ok (sortImpl w), searchList, reqs⟩ := by
        simp [searchFoodTrucks, hprox, hgw]
      rw [htrue] at heq
      simp only [searchResult.mk.injEq, GoOutcome.ok.injEq] at heq
      obtain ⟨h1, h2, h3⟩ := heq
      subst h1
      subst h3
      refine ⟨(hC w).2, w, searchList, ?_, (hC w).1⟩
      simp [searchFoodTrucks, hprox, hgw]
    | error e =>
      have htrue : searchFoodTrucks sortImpl searchList retr searchTerm lat lon true =
          ⟨.panicked e, searchList, reqs⟩ := by
        simp [searchFoodTrucks, hprox, hgw]
      rw [htrue] at heq
      simp at heq
    | panicked e =>
      have htrue : searchFoodTrucks sortImpl searchList retr searchTerm lat lon true =
          ⟨.panicked e, searchList, reqs⟩ := by
        simp [searchFoodTrucks, hprox, hgw]
      rw [htrue] at heq
      simp at heq
  · have htrue : searchFoodTrucks sortImpl searchList retr searchTerm lat lon true =
        ⟨.ok (sortImpl (keywordStep searchList searchTerm)),
          if 0 < searchTerm.length then searchList
            else sortImpl (keywordStep searchList searchTerm), []⟩ := by
      simp [searchFoodTrucks, hprox]
    rw [htrue] at heq
    simp only [searchResult.mk.injEq, GoOutcome.ok.injEq] at heq
    obtain ⟨h1, h2, h3⟩ := heq
    subst h1
    rw [← h3]
    refine ⟨(hC (keywordStep searchList searchTerm)).2,
      keywordStep searchList searchTerm, searchList, ?_,
      (hC (keywordStep searchList searchTerm)).1⟩
    simp [searchFoodTrucks, hprox]

/-- C2 counterexample: the claim additionally asserts stability — records
with equal freshness keep their prior relative order.  The anti-stable
procedure satisfies the `sort.Slice` contract, yet on the concrete base list
of two records that tie at `Received = 5` the newest-first result lists them
in reversed order, so the stable-sort property fails. -/
theorem searchFoodTrucks_sort_not_stable :
    ¬ ∀ sortImpl : List foodTruckInfo → List foodTruckInfo,
        SortSliceContract sortImpl →
        ∀ (searchList : List foodTruckInfo) (retr : Retriever) (searchTerm : String)
          (lat lon : Rat) (l pre b b2 : List foodTruckInfo)
          (rq rq2 : List DMRequest),
          searchFoodTrucks sortImpl searchList retr searchTerm lat lon true =
            ⟨.ok l, b, rq⟩ →
          searchFoodTrucks sortImpl searchList retr searchTerm lat lon false =
            ⟨.ok pre, b2, rq2⟩ →
          StableDescOf pre l := by
  intro h
  have h2 := h antiSortRecv contract_antiSortRecv
    [demoTruck "A" 5, demoTruck "B" 5] failRetr "" 0 0
    [demoTruck "B" 5, demoTruck "A" 5] [demoTruck "A" 5, demoTruck "B" 5]
    [demoTruck "B" 5, demoTruck "A" 5] [demoTruck "A" 5, demoTruck "B" 5]
    [] [] (by decide) (by decide)
  have h3 := h2.2 5
  revert h3
  decide

/-- Witness for C2 (amended): instantiating the amended theorem on a concrete
base list whose newest-first result is the stably sorted permutation of the
unsorted run. -/
theorem searchFoodTrucks_newest_sorted_witness :
    ([demoTruck "B" 2, demoTruck "A" 1] : List foodTruckInfo).Pairwise
        (fun a b => b.Received ≤ a.Received) ∧
      ∃ pre b2,
        searchFoodTrucks stableSortRecv [demoTruck "A" 1, demoTruck "B" 2] failRetr
            "" 0 0 false = ⟨.ok pre, b2, []⟩ ∧
          ([demoTruck "B" 2, demoTruck "A" 1] : List foodTruckInfo).Perm pre :=
  searchFoodTrucks_newest_sorted stableSortRecv contract_stableSortRecv
    [demoTruck "A" 1, demoTruck "B" 2] failRetr "" 0 0
    [demoTruck "B" 2, demoTruck "A" 1]
    (stableSortRecv [demoTruck "A" 1, demoTruck "B" 2]) [] (by decide)

theorem collectElems_spec (allTrucks : List foodTruckInfo) :
    ∀ (es : List DMElement) (idx : Nat) (acc : List foodTruckInfo),
      (∀ v, v < es.length → idx + v < allTrucks.length) →
      collectElems allTrucks idx es acc =
        .ok (acc ++ keptForBatch allTrucks idx es) := by
  intro es
  induction es with
  | nil => intro idx acc _; simp [collectElems, keptForBatch]
  | cons elem rest ih =>
    intro idx acc h
    have hlt : idx < allTrucks.length := by
      have := h 0 (by simp)
      omega
    have hsome : allTrucks[idx]? = some allTrucks[idx] := List.getElem?_eq_getElem hlt
    have hnext : ∀ v, v < rest.length → (idx + 1) + v < allTrucks.length := by
      intro v hv
      have := h (v + 1) (by simpa using Nat.succ_lt_succ hv)
      omega
    by_cases hp : elem.Status = "OK" ∧ elem.Distance.Meters < 1000
    · simp only [collectElems, if_pos hp, hsome]
      rw [ih (idx + 1) (acc ++ [allTrucks[idx]]) hnext]
      simp [keptForBatch, if_pos hp, hsome]
    · simp only [collectElems, if_neg hp]
      rw [ih (idx + 1) acc hnext]
      simp [keptForBatch, if_neg hp]

theorem batchRequest_destinations_length (origin : Rat × Rat)
    (allTrucks : List foodTruckInfo) (i : Nat) :
    (batchRequest origin allTrucks i).Destinations.length =
      min (min allTrucks.length (i * 25 + 25) - i * 25)
        (allTrucks.length - i * 25) := by
  simp [batchRequest]

theorem batchLoop_spec (d : Retriever) (allTrucks : List foodTruckInfo)
    (origin : Rat × Rat) (H : RetrieverWellFormed d) :
    ∀ (rem i : Nat) (acc : List foodTruckInfo) (reqs : List DMRequest),
      batchLoop d allTrucks origin i rem acc reqs =
        (.ok (acc ++ keptFrom d allTrucks origin i rem),
          reqs ++ (List.range' i rem).map (batchRequest origin allTrucks)) := by
  intro rem
  induction rem with
  | zero => intro i acc reqs; simp [batchLoop, keptFrom]
  | succ rem ih =>
    intro i acc reqs
    obtain ⟨resp, row, rest, hd, hrows, hlen⟩ := H (batchRequest origin allTrucks i)
    have helems : elemsFor d allTrucks origin i = row.Elements := by
      simp [elemsFor, hd, hrows]
    have hbound : ∀ v, v < row.Elements.length → i * 25 + v < allTrucks.length := by
      intro v hv
      rw [hlen, batchRequest_destinations_length] at hv
      omega
    simp only [batchLoop, hd, hrows]
    rw [collectElems_spec allTrucks row.Elements (i * 25) acc hbound]
    simp only [ih (i + 1)]
    rw [List.range'_succ]
    simp [keptFrom, helems]

/-- C6: under a well-formed retriever, `getWalkableTrucks` returns normally
(no error) and retains, batch by batch, exactly the candidates whose
positionally corresponding response element (element `v` of the batch
starting at offset `i * 25` decides candidate `i * 25 + v`, see
`keptForBatch`) has status "OK" and distance strictly below 1000 meters;
elements with non-OK status or distance of 1000 meters or more drop their
candidate without any error. -/
theorem getWalkableTrucks_batch_retention (d : Retriever)
    (allTrucks : List foodTruckInfo) (lat lon : Rat) (H : RetrieverWellFormed d) :
    getWalkableTrucks d allTrucks lat lon =
      ⟨.ok (keptFrom d allTrucks (lat, lon) 0 ((allTrucks.length + 24) / 25)),
        (List.range ((allTrucks.length + 24) / 25)).map
          (batchRequest (lat, lon) allTrucks)⟩ := by
  unfold getWalkableTrucks
  simp only [batchLoop_spec d allTrucks (lat, lon) H ((allTrucks.length + 24) / 25) 0 [] []]
  simp [List.range_eq_range']

/-- A lawful mock retriever: every destination of every request is answered
"OK" at 500 meters, in one row. -/
theorem okRetr_wellFormed : RetrieverWellFormed okRetr := by
  intro r
  exact ⟨⟨[⟨r.Destinations.map (fun _ => ⟨"OK", ⟨"0.5 km", 500⟩⟩)⟩]⟩,
    ⟨r.Destinations.map (fun _ => ⟨"OK", ⟨"0.5 km", 500⟩⟩)⟩, [], rfl, rfl, by simp⟩

/-- Witness for C6: the batch-retention characterization instantiated on a
concrete three-candidate list and the lawful mock retriever. -/
theorem getWalkableTrucks_batch_retention_witness :
    getWalkableTrucks okRetr [demoTruck "A" 1, demoTruck "B" 2, demoTruck "C" 3] 1 1 =
      ⟨.ok (keptFrom okRetr [demoTruck "A" 1, demoTruck "B" 2, demoTruck "C" 3]
          (1, 1) 0 (([demoTruck "A" 1, demoTruck "B" 2, demoTruck "C" 3].length + 24) / 25)),
        (List.range (([demoTruck "A" 1, demoTruck "B" 2, demoTruck "C" 3].length + 24) / 25)).map
          (batchRequest (1, 1) [demoTruck "A" 1, demoTruck "B" 2, demoTruck "C" 3])⟩ :=
  getWalkableTrucks_batch_retention okRetr
    [demoTruck "A" 1, demoTruck "B" 2, demoTruck "C" 3] 1 1 okRetr_wellFormed

theorem take_sub_take {α : Type} (l : List α) {m k : Nat} (h : m ≤ k) :
    (l.take m).Sublist (l.take k) := by
  have heq : (l.take k).take m = l.take m := by
    rw [List.take_take, Nat.min_eq_left h]
  rw [← heq]
  exact List.take_sublist m (l.take k)

theorem keptForBatch_sublist (allTrucks : List foodTruckInfo) :
    ∀ (es : List DMElement) (idx : Nat),
      (keptForBatch allTrucks idx es).Sublist ((allTrucks.drop idx).take es.length) := by
  intro es
  induction es with
  | nil => intro idx; simp [keptForBatch]
  | cons elem rest ih =>
    intro idx
    by_cases hlt : idx < allTrucks.length
    · have hdrop : allTrucks.drop idx = allTrucks[idx] :: allTrucks.drop (idx + 1) :=
        List.drop_eq_getElem_cons hlt
      have hsome : allTrucks[idx]? = some allTrucks[idx] := List.getElem?_eq_getElem hlt
      by_cases hp : elem.Status = "OK" ∧ elem.Distance.Meters < 1000
      · simp only [keptForBatch, if_pos hp, hsome, Option.toList_some, hdrop,
          List.length_cons, List.take_succ_cons, List.singleton_append]
        exact (ih (idx + 1)).cons₂ allTrucks[idx]
      · simp only [keptForBatch, if_neg hp, hdrop, List.length_cons,
          List.take_succ_cons, List.nil_append]
        exact (ih (idx + 1)).cons allTrucks[idx]
    · have hdrop : allTrucks.drop idx = [] := List.drop_eq_nil_of_le (by omega)
      have hdrop2 : allTrucks.drop (idx + 1) = [] := List.drop_eq_nil_of_le (by omega)
      have hnone : allTrucks[idx]? = none := by
        rw [List.getElem?_eq_none_iff]
        omega
      have hkept : keptForBatch allTrucks (idx + 1) rest = [] := by
        have h2 := ih (idx + 1)
        rw [hdrop2] at h2
        simpa using h2
      simp [keptForBatch, hnone, hkept, hdrop]

theorem keptFrom_sublist (d : Retriever) (allTrucks : List foodTruckInfo)
    (origin : Rat × Rat) (H : RetrieverWellFormed d) :
    ∀ (rem i : Nat),
      (keptFrom d allTrucks origin i rem).Sublist (allTrucks.drop (i * 25)) := by
  intro rem
  induction rem with
  | zero => intro i; simp [keptFrom]
  | succ rem ih =>
    intro i
    have hlen25 : (elemsFor d allTrucks origin i).length ≤ 25 := by
      obtain ⟨resp, row, rest, hd, hrows, hlen⟩ := H (batchRequest origin allTrucks i)
      have helems : elemsFor d allTrucks origin i = row.Elements := by
        simp [elemsFor, hd, hrows]
      rw [helems, hlen, batchRequest_destinations_length]
      omega
    have h1 : (keptForBatch allTrucks (i * 25)
        (elemsFor d allTrucks origin i)).Sublist ((allTrucks.drop (i * 25)).take 25) :=
      (keptForBatch_sublist allTrucks (elemsFor d allTrucks origin i) (i * 25)).trans
        (take_sub_take (allTrucks.drop (i * 25)) hlen25)
    have h2 : (keptFrom d allTrucks origin (i + 1) rem).Sublist
        ((allTrucks.drop (i * 25)).drop 25) := by
      have hdd : (allTrucks.drop (i * 25)).drop 25 = allTrucks.drop ((i + 1) * 25) := by
        rw [List.drop_drop]
        congr 1
        ring
      rw [hdd]
      exact ih (i + 1)
    have h3 := h1.append h2
    rw [List.take_append_drop] at h3
    simpa [keptFrom] using h3

/-- C7: under a well-formed retriever, `getWalkableTrucks` issues exactly
`ceil(n / 25)` distance-lookup calls for `n` candidates — one per consecutive
batch of at most 25 — and the retained candidates appear in the output in
their original candidate-list order (an order-preserving sublist). -/
theorem getWalkableTrucks_batching (d : Retriever) (allTrucks : List foodTruckInfo)
    (lat lon : Rat) (H : RetrieverWellFormed d) :
    (getWalkableTrucks d allTrucks lat lon).requests.length =
        (allTrucks.length + 24) / 25 ∧
      ∃ l, (getWalkableTrucks d allTrucks lat lon).outcome = .ok l ∧
        l.Sublist allTrucks := by
  rw [getWalkableTrucks_batch_retention d allTrucks lat lon H]
  refine ⟨by simp, keptFrom d allTrucks (lat, lon) 0 ((allTrucks.length + 24) / 25),
    rfl, ?_⟩
  have h := keptFrom_sublist d allTrucks (lat, lon) H ((allTrucks.length + 24) / 25) 0
  simpa using h

/-- Witness for C7: a concrete list of 30 candidates with the lawful mock
retriever issues exactly 2 calls, with batch sizes 25 and 5, and the output
is an order-preserving sublist of the input. -/
theorem getWalkableTrucks_batching_witness :
    ((getWalkableTrucks okRetr ((List.range 30).map (fun i => demoTruck (toString i) i))
            1 1).requests.length =
        (((List.range 30).map (fun i => demoTruck (toString i) i)).length + 24) / 25 ∧
      ∃ l, (getWalkableTrucks okRetr ((List.range 30).map (fun i => demoTruck (toString i) i))
              1 1).outcome = .ok l ∧
        l.Sublist ((List.range 30).map (fun i => demoTruck (toString i) i))) ∧
      (getWalkableTrucks okRetr ((List.range 30).map (fun i => demoTruck (toString i) i))
          1 1).requests.map (fun r => r.Destinations.length) = [25, 5] :=
  ⟨getWalkableTrucks_batching okRetr ((List.range 30).map (fun i => demoTruck (toString i) i))
      1 1 okRetr_wellFormed,
    by decide⟩

theorem batchLoop_requests_le (d : Retriever) (allTrucks : List foodTruckInfo)
    (origin : Rat × Rat) :
    ∀ (rem i : Nat) (acc : List foodTruckInfo) (reqs : List DMRequest),
      reqs.length ≤ (batchLoop d allTrucks origin i rem acc reqs).2.length := by
  intro rem
  induction rem with
  | zero => intro i acc reqs; simp [batchLoop]
  | succ rem ih =>
    intro i acc reqs
    simp only [batchLoop]
    cases hd : d (batchRequest origin allTrucks i) with
    | error e => simp
    | ok resp =>
      dsimp only
      cases hrows : resp.Rows with
      | nil => simp
      | cons row rest =>
        dsimp only
        cases hc : collectElems allTrucks (i * 25) row.Elements acc with
        | ok acc2 =>
          calc reqs.length ≤ (reqs ++ [batchRequest origin allTrucks i]).length := by simp
            _ ≤ _ := ih (i + 1) acc2 (reqs ++ [batchRequest origin allTrucks i])
        | error e => simp
        | panicked e => simp

theorem batchLoop_requests_pos (d : Retriever) (allTrucks : List foodTruckInfo)
    (origin : Rat × Rat) (rem i : Nat) (acc : List foodTruckInfo)
    (reqs : List DMRequest) (hrem : 0 < rem) :
    reqs.length < (batchLoop d allTrucks origin i rem acc reqs).2.length := by
  obtain ⟨rem2, hrem2⟩ : ∃ rem2, rem = rem2 + 1 := ⟨rem - 1, by omega⟩
  subst hrem2
  simp only [batchLoop]
  cases hd : d (batchRequest origin allTrucks i) with
  | error e => simp
  | ok resp =>
    dsimp only
    cases hrows : resp.Rows with
    | nil => simp
    | cons row rest =>
      dsimp only
      cases hc : collectElems allTrucks (i * 25) row.Elements acc with
      | ok acc2 =>
        calc reqs.length < (reqs ++ [batchRequest origin allTrucks i]).length := by simp
          _ ≤ _ := batchLoop_requests_le d allTrucks origin rem2 (i + 1) acc2
            (reqs ++ [batchRequest origin allTrucks i])
      | error e => simp
      | panicked e => simp

/-- C8: the proximity-filter step of `searchFoodTrucks` runs exactly when
both coordinates are non-zero.  When either is zero the step is skipped
silently: no distance-lookup request is issued, the result set passes through
that step unchanged (only the keyword step and optional sort apply), and the
outcome does not depend on the retriever at all.  When both are non-zero the
issued requests are exactly those of `getWalkableTrucks` on the keyword-step
result — at least one request as soon as that result is non-empty. -/
theorem searchFoodTrucks_proximity_iff
    (sortImpl : List foodTruckInfo → List foodTruckInfo)
    (searchList : List foodTruckInfo) (retr : Retriever) (searchTerm : String)
    (lat lon : Rat) (newestFirst : Bool) :
    ((lat = 0 ∨ lon = 0) →
      (searchFoodTrucks sortImpl searchList retr searchTerm lat lon
          newestFirst).requests = [] ∧
        (searchFoodTrucks sortImpl searchList retr searchTerm lat lon
            newestFirst).outcome =
          .ok (if newestFirst then sortImpl (keywordStep searchList searchTerm)
            else keywordStep searchList searchTerm) ∧
        ∀ retr2 : Retriever,
          searchFoodTrucks sortImpl searchList retr2 searchTerm lat lon newestFirst =
            searchFoodTrucks sortImpl searchList retr searchTerm lat lon newestFirst) ∧
      (lat ≠ 0 → lon ≠ 0 →
        (searchFoodTrucks sortImpl searchList retr searchTerm lat lon
            newestFirst).requests =
          (getWalkableTrucks retr (keywordStep searchList searchTerm) lat lon).requests ∧
          (keywordStep searchList searchTerm ≠ [] →
            (searchFoodTrucks sortImpl searchList retr searchTerm lat lon
                newestFirst).requests ≠ [])) := by
  constructor
  · intro hz
    have hprox : ¬ (lat ≠ 0 ∧ lon ≠ 0) := by
      rcases hz with h0 | h0 <;> simp [h0]
    refine ⟨?_, ?_, ?_⟩
    · cases newestFirst <;> simp [searchFoodTrucks, hprox]
    · cases newestFirst <;> simp [searchFoodTrucks, hprox]
    · intro retr2
      cases newestFirst <;> simp [searchFoodTrucks, hprox]
  · intro hlat hlon
    have hprox : lat ≠ 0 ∧ lon ≠ 0 := ⟨hlat, hlon⟩
    have hreq : (searchFoodTrucks sortImpl searchList retr searchTerm lat lon
        newestFirst).requests =
        (getWalkableTrucks retr (keywordStep searchList searchTerm) lat lon).requests := by
      rcases hgw : getWalkableTrucks retr (keywordStep searchList searchTerm) lat lon with
        ⟨out, reqs⟩
      cases out <;> simp [searchFoodTrucks, hprox, hgw]
    refine ⟨hreq, ?_⟩
    intro hne
    rw [hreq, getWalkableTrucks_requests_eq]
    have hrem : 0 < ((keywordStep searchList searchTerm).length + 24) / 25 := by
      have : 0 < (keywordStep searchList searchTerm).length :=
        List.length_pos.mpr hne
      omega
    have hpos := batchLoop_requests_pos retr (keywordStep searchList searchTerm)
      (lat, lon) (((keywordStep searchList searchTerm).length + 24) / 25) 0 [] [] hrem
    intro hcon
    rw [hcon] at hpos
    simp at hpos

/-- Witness for C8: with a zero latitude no request is issued even for a
failing retriever, and with both coordinates non-zero on a non-empty list the
request list is non-empty. -/
theorem searchFoodTrucks_proximity_iff_witness :
    (searchFoodTrucks stableSortRecv [demoTruck "A" 1] failRetr "" 0 5 true).requests =
        [] ∧
      (searchFoodTrucks stableSortRecv [demoTruck "A" 1] okRetr "" 1 1 false).requests ≠
        [] :=
  ⟨((searchFoodTrucks_proximity_iff stableSortRecv [demoTruck "A" 1] failRetr "" 0 5
        true).1 (Or.inl rfl)).1,
    ((searchFoodTrucks_proximity_iff stableSortRecv [demoTruck "A" 1] okRetr "" 1 1
        false).2 (by decide) (by decide)).2 (by decide)⟩
